import Mathlib

/-!
Verification of the xpert agent-graph runtime against its specification.

The definitions below are shallow embeddings of the TypeScript sources:
  * `Xpert.Hitl`      — packages/plugins/agent-middlewares/src/lib/hitl.ts
  * `Xpert.ToolNode`  — packages/server-ai/src/xpert-agent/commands/handlers/tool_node.ts
  * `Xpert.Selector`  — the LLM tool-selector middleware (processSelectionResponse)
  * `Xpert.ClientTool`— the client-tool middleware (wrapToolCall / toToolMessage)
  * `Xpert.Invoke`    — packages/server-ai/src/xpert-agent/commands/handlers/invoke.handler.ts
  * `Xpert.Subgraph`  — the wrapModelCall composition in subgraph.handler.ts

JavaScript records are modelled as association lists, JS `undefined`/`null` as
`Option`, thrown exceptions as `Except`, and argument objects by their
JSON-stringified form (the runtime only ever copies them around).
-/

namespace Xpert

/-- Exceptions are values here, so equality of fallible results is decidable. -/
instance {ε α : Type _} [DecidableEq ε] [DecidableEq α] : DecidableEq (Except ε α) := fun x y =>
  match x, y with
  | .ok a, .ok b =>
    if h : a = b then .isTrue (by rw [h]) else .isFalse (by simp [h])
  | .error a, .error b =>
    if h : a = b then .isTrue (by rw [h]) else .isFalse (by simp [h])
  | .ok _, .error _ => .isFalse (by simp)
  | .error _, .ok _ => .isFalse (by simp)

/-- A tool call `{id?, name, args}` as in `@langchain/core/messages/tool`.
`args` is kept as its JSON-stringified form since the runtime only copies it. -/
structure ToolCall where
  id : Option String
  name : String
  args : String
deriving Repr, DecidableEq

/-- The fields of a langchain `ToolMessage` that the runtime reads or writes.
`status` is `none` when the constructor was not given a `status` field
(langchain leaves it undefined in that case). -/
structure ToolMessageM where
  name : Option String := none
  content : String
  tool_call_id : Option String
  status : Option String := none
  artifact : Option String := none
deriving Repr, DecidableEq

/-- Chat messages as far as the embedded code inspects them
(`_getType()`, `tool_calls`, `content`). -/
inductive Msg
  | ai (id : Option String) (content : String) (tool_calls : List ToolCall)
  | tool (m : ToolMessageM)
  | human (content : String)
deriving Repr, DecidableEq

/-- `message._getType()` in langchain. -/
def Msg.getType : Msg → String
  | .ai _ _ _ => "ai"
  | .tool _ => "tool"
  | .human _ => "human"

/-- `isAIMessage(msg)`. -/
def Msg.isAI : Msg → Bool
  | .ai _ _ _ => true
  | _ => false

end Xpert

namespace Xpert.Hitl

/-- The three decision kinds of `hitl.ts` (`ALLOWED_DECISIONS`). -/
inductive DecisionType
  | approve
  | edit
  | reject
deriving Repr, DecidableEq

/-- An `Action {name, args}` (args JSON-stringified, see `Xpert.ToolCall`). -/
structure Action where
  name : String
  args : String
deriving Repr, DecidableEq

/-- A human `Decision`.  `edit` carries `editedAction` (`none` models the
JS value being absent/null, which `processDecision` rejects); `reject`
carries the optional human message. -/
inductive Decision
  | approve
  | edit (editedAction : Option Action)
  | reject (message : Option String)
deriving Repr, DecidableEq

/-- `decision.type` as a `DecisionType`. -/
def Decision.dtype : Decision → DecisionType
  | .approve => .approve
  | .edit _ => .edit
  | .reject _ => .reject

/-- `InterruptOnConfig` of `hitl.ts`.  `description` is modelled for the
static-string case only (the claims under verification never inspect a
callable description); `argsSchema` is kept as an opaque string. -/
structure InterruptOnConfig where
  allowedDecisions : List DecisionType
  description : Option String := none
  argsSchema : Option String := none
deriving Repr, DecidableEq

/-- A value of the `interruptOn` record: `boolean | InterruptOnConfig`. -/
inductive InterruptOnValue
  | flag (b : Bool)
  | cfg (c : InterruptOnConfig)
deriving Repr, DecidableEq

/-- The middleware options the afterModel hook reads (after `interopParse`). -/
structure HitlOptions where
  interruptOn : Option (List (String × InterruptOnValue)) := none
  descriptionPrefix : Option String := none
deriving Repr, DecidableEq

/-- `ActionRequest {name, args, description}`. -/
structure ActionRequest where
  name : String
  args : String
  description : String
deriving Repr, DecidableEq

/-- `ReviewConfig {actionName, allowedDecisions, argsSchema?}`. -/
structure ReviewConfig where
  actionName : String
  allowedDecisions : List DecisionType
  argsSchema : Option String := none
deriving Repr, DecidableEq

/-- The single interrupt payload `HITLRequest {actionRequests, reviewConfigs}`. -/
structure HITLRequest where
  actionRequests : List ActionRequest
  reviewConfigs : List ReviewConfig
deriving Repr, DecidableEq

/-- The state update an afterModel hook returns: `{messages, jumpTo}`. -/
structure HookUpdate where
  messages : List Msg
  jumpTo : Option String
deriving Repr, DecidableEq

/-- Outcome of one run of the HITL afterModel hook.  `skip` is the hook
returning `undefined`; `interrupted req r` means the hook raised exactly one
interrupt with payload `req`, and `r` is what happens after the resume value
is delivered (`Except.error` models the hook throwing). -/
inductive HitlOutcome
  | skip
  | interrupted (request : HITLRequest) (resumed : Except String HookUpdate)
deriving Repr, DecidableEq

/-- `true` iff the outcome is an interrupt whose resume processing threw. -/
def HitlOutcome.resumeErrored : HitlOutcome → Bool
  | .interrupted _ (.error _) => true
  | _ => false

/-- The hook's resolution of the `interruptOn` record (hitl.ts lines 487-500):
`true` enables all decisions, `false` is dropped (auto-approve), an explicit
config is kept as is. -/
def resolvedConfigs (interruptOn : List (String × InterruptOnValue)) :
    List (String × InterruptOnConfig) :=
  interruptOn.filterMap fun p =>
    match p.2 with
    | .flag true => some (p.1, { allowedDecisions := [.approve, .edit, .reject] })
    | .flag false => none
    | .cfg c => some (p.1, c)

/-- First-match lookup in the resolved-config record (`toolCall.name in resolvedConfigs`
/ `resolvedConfigs[toolCall.name]`). -/
def lookupCfg (cfgs : List (String × InterruptOnConfig)) (name : String) :
    Option InterruptOnConfig :=
  (cfgs.find? fun p => p.1 = name).map (·.2)

/-- Renders `toolCall.id` the way a JS template literal would. -/
def idString : Option String → String
  | some i => i
  | none => "undefined"

/-- The default rejection text of `processDecision`
(`User rejected the tool call for ... with id ...`). -/
def defaultRejectText (toolCall : ToolCall) : String :=
  "User rejected the tool call for `" ++ toolCall.name ++ "` with id " ++ idString toolCall.id

/-- `processDecision` (hitl.ts lines 372-448): validates one decision against
one interrupt tool call and its config, returning the revised tool call and an
optional synthetic ToolMessage. -/
def processDecision (decision : Decision) (toolCall : ToolCall)
    (config : InterruptOnConfig) : Except String (ToolCall × Option ToolMessageM) :=
  match decision with
  | .approve =>
    if config.allowedDecisions.contains .approve then
      .ok (toolCall, none)
    else
      .error ("Unexpected human decision: decision type 'approve' is not allowed for tool '"
        ++ toolCall.name ++ "'.")
  | .edit editedAction =>
    if config.allowedDecisions.contains .edit then
      match editedAction with
      | none =>
        .error ("Invalid edited action for tool \"" ++ toolCall.name ++ "\": name must be a string")
      | some a =>
        .ok ({ id := toolCall.id, name := a.name, args := a.args }, none)
    else
      .error ("Unexpected human decision: decision type 'edit' is not allowed for tool '"
        ++ toolCall.name ++ "'.")
  | .reject message =>
    if config.allowedDecisions.contains .reject then
      let content := message.getD (defaultRejectText toolCall)
      .ok (toolCall,
        some { content := content, name := some toolCall.name,
               tool_call_id := toolCall.id, status := some "error" })
    else
      .error ("Unexpected human decision: decision type 'reject' is not allowed for tool '"
        ++ toolCall.name ++ "'.")

/-- The decision-processing loop of the afterModel hook (hitl.ts lines 583-608):
collects the revised tool calls that survive (`!hasRejectedToolCalls ||
decision.type === "reject"`) and the artificial tool messages. -/
def processDecisions (resolved : List (String × InterruptOnConfig)) (hasRejected : Bool) :
    List (Decision × ToolCall) → Except String (List ToolCall × List ToolMessageM)
  | [] => .ok ([], [])
  | (d, c) :: rest => do
    let cfg := (lookupCfg resolved c.name).getD { allowedDecisions := [] }
    let (revised, msg?) ← processDecision d c cfg
    let (rs, ms) ← processDecisions resolved hasRejected rest
    let keep := if !hasRejected || d.dtype = .reject then [revised] else []
    .ok (keep ++ rs, msg?.toList ++ ms)

/-- `createActionAndConfig` (hitl.ts lines 323-370), for the static-description
case: the default description is built from `descriptionPrefix`. -/
def buildActionRequest (options : HitlOptions) (cfg : InterruptOnConfig)
    (toolCall : ToolCall) : ActionRequest :=
  let description :=
    match cfg.description with
    | some d => d
    | none =>
      (options.descriptionPrefix.getD "Tool execution requires approval")
        ++ "\n\nTool: " ++ toolCall.name ++ "\nArgs: " ++ toolCall.args
  { name := toolCall.name, args := toolCall.args, description := description }

/-- Builds the single `HITLRequest` for all interrupt tool calls
(hitl.ts lines 520-548). -/
def buildHitlRequest (options : HitlOptions) (resolved : List (String × InterruptOnConfig))
    (interruptToolCalls : List ToolCall) : HITLRequest :=
  { actionRequests := interruptToolCalls.map fun c =>
      buildActionRequest options ((lookupCfg resolved c.name).getD { allowedDecisions := [] }) c
    reviewConfigs := interruptToolCalls.map fun c =>
      let cfg := (lookupCfg resolved c.name).getD { allowedDecisions := [] }
      { actionName := c.name, allowedDecisions := cfg.allowedDecisions,
        argsSchema := cfg.argsSchema } }

/-- Resume-side of the afterModel hook (hitl.ts lines 553-623):
validates the decisions payload (`none` models a resume value whose
`decisions` is missing or not an array), pairs decisions with the interrupt
tool calls, rewrites the AI message's `tool_calls` to the auto-approved calls
plus the surviving revised calls, appends the artificial tool messages and
sets `jumpTo` when any decision was a rejection. -/
def hitlResume (resolved : List (String × InterruptOnConfig))
    (mid : Option String) (content : String)
    (autoApprovedToolCalls interruptToolCalls : List ToolCall)
    (resume : Option (List Decision)) : Except String HookUpdate :=
  match resume with
  | none => .error "Invalid HITLResponse: decisions must be a non-empty array"
  | some decisions =>
    if decisions.length ≠ interruptToolCalls.length then
      .error ("Number of human decisions (" ++ toString decisions.length
        ++ ") does not match number of hanging tool calls ("
        ++ toString interruptToolCalls.length ++ ").")
    else
      let hasRejected := decisions.any fun d => d.dtype = .reject
      match processDecisions resolved hasRejected (decisions.zip interruptToolCalls) with
      | .error e => .error e
      | .ok (kept, artificial) =>
        .ok { messages :=
                Msg.ai mid content (autoApprovedToolCalls ++ kept) :: artificial.map Msg.tool,
              jumpTo := if hasRejected then some "model" else none }

/-- The HITL middleware's afterModel hook (hitl.ts lines 453-624), as a
function of the agent's messages and (for the interrupt case) of the resume
payload eventually delivered to `interrupt`. -/
def hitlAfterModel (options : HitlOptions) (messages : List Msg)
    (resume : Option (List Decision)) : HitlOutcome :=
  if messages.isEmpty then .skip
  else
    match messages.reverse.find? Msg.isAI with
    | none => .skip
    | some (.tool _) => .skip
    | some (.human _) => .skip
    | some (.ai mid content calls) =>
      if calls.isEmpty then .skip
      else
        match options.interruptOn with
        | none => .skip
        | some io =>
          let resolved := resolvedConfigs io
          let interruptToolCalls := calls.filter fun c => (lookupCfg resolved c.name).isSome
          let autoApprovedToolCalls := calls.filter fun c => (lookupCfg resolved c.name).isNone
          if interruptToolCalls.isEmpty then .skip
          else
            .interrupted (buildHitlRequest options resolved interruptToolCalls)
              (hitlResume resolved mid content autoApprovedToolCalls interruptToolCalls resume)

end Xpert.Hitl

namespace Xpert.ToolNode

/-- An exception value as the tool node's catch block inspects it:
`e.message` and `isGraphInterrupt(e)`. -/
structure Err where
  message : String
  isGraphInterrupt : Bool
deriving Repr, DecidableEq

/-- A value stored in a `Command.update` record: either a messages list
(plain or `{messages: [...]}`-wrapped, which the embedding flattens) or a
variable value written by an assigner. -/
inductive ChannelVal
  | msgs (ms : List Msg)
  | str (s : Option String)
deriving Repr, DecidableEq

/-- A langgraph `Command` as the tool node builds or rewrites it:
an association list from channel name to update value. -/
structure CmdM where
  update : List (String × ChannelVal)
deriving Repr, DecidableEq

/-- A value returned by a tool invocation or by a wrapToolCall hook:
an actual `ToolMessage`, a `Command`, or anything else (kept in its
stringified form, `typeof output === "string" ? output : JSON.stringify(output)`). -/
inductive ToolOutput
  | message (m : ToolMessageM)
  | command (c : CmdM)
  | raw (s : String)
deriving Repr, DecidableEq

/-- What a concrete tool does when invoked in a given scenario. -/
inductive ToolBehavior
  | returns (o : ToolOutput)
  | throws (e : Err)
deriving Repr, DecidableEq

/-- A tool as the tool node sees it: a name and its invocation behavior. -/
structure Tool where
  name : String
  behavior : ToolBehavior
deriving Repr, DecidableEq

/-- A `TVariableAssigner` entry (tool_node.ts lines 126-138). -/
structure VariableAssigner where
  inputType : String
  value : String
  variableSelector : String
deriving Repr, DecidableEq

/-- The per-node options of `ToolNode` that `run` reads.  `channel` is
`channelName(caller)` or `none` when no caller was configured (in which case
JS uses the object key `"null"`).  `varAssigners` embeds the node's
`variables` option (`variables` is a reserved word in Lean). -/
structure ToolNodeCfg where
  handleToolErrors : Bool := true
  channel : Option String := none
  varAssigners : Option (List VariableAssigner) := none
deriving Repr, DecidableEq

/-- The channel key actually used by the JS object literals:
`[this.channel]` with a `null` channel produces the string key `"null"`. -/
def ToolNodeCfg.channelKey (cfg : ToolNodeCfg) : String :=
  cfg.channel.getD "null"

/-- The behavior of a configured `wrapToolCall` hook in a given scenario:
delegate to the default handler, return a value of its own, or throw. -/
inductive WrapBehavior
  | callDefault
  | returns (o : ToolOutput)
  | throws (e : Err)
deriving Repr, DecidableEq

/-- The payload of the `on_tool_error` custom event (tool_node.ts lines 188-191). -/
structure ToolErrorEvent where
  toolCall : ToolCall
  error : String
deriving Repr, DecidableEq

/-- What one tool call contributes to the node's output list. -/
inductive CallResult
  | msg (m : ToolMessageM)
  | cmd (c : CmdM)
deriving Repr, DecidableEq

/-- `defaultHandler` (tool_node.ts lines 89-117): invoke the tool; keep a
`ToolMessage` or `Command` result; wrap anything else into a `ToolMessage`
with `name: tool.name` and `tool_call_id: request.toolCall.id`.  A throwing
tool propagates to the surrounding catch. -/
def defaultHandler (tool : Tool) (call : ToolCall) : Except Err ToolOutput :=
  match tool.behavior with
  | .throws e => .error e
  | .returns (.message m) => .ok (.message m)
  | .returns (.command c) => .ok (.command c)
  | .returns (.raw s) =>
    .ok (.message { name := some tool.name, content := s, tool_call_id := call.id })

/-- The variable-assigner branch (tool_node.ts lines 126-148): builds a
`Command` carrying the assigned variables plus the tool message in both the
agent channel and `messages`. -/
def variablesCommand (cfg : ToolNodeCfg) (vars : List VariableAssigner)
    (m : ToolMessageM) : CmdM :=
  let assigned := vars.filterMap fun v =>
    if v.inputType = "variable" then
      if v.value = "artifact" then some (v.variableSelector, ChannelVal.str m.artifact)
      else some (v.variableSelector, ChannelVal.str (some m.content))
    else if v.inputType = "constant" then
      some (v.variableSelector, ChannelVal.str (some v.value))
    else none
  { update := assigned
      ++ [(cfg.channelKey, ChannelVal.msgs [Msg.tool m]), ("messages", ChannelVal.msgs [Msg.tool m])] }

/-- The command-migration branch (tool_node.ts lines 150-167): a `messages`
update produced by the tool is mirrored into the caller's agent channel. -/
def migrateCommand (cfg : ToolNodeCfg) (c : CmdM) : CmdM :=
  let messagesVal :=
    match (c.update.find? fun p => p.1 = "messages").map (·.2) with
    | some (ChannelVal.msgs ms) => ChannelVal.msgs ms
    | _ => ChannelVal.msgs []
  { update := c.update ++ [(cfg.channelKey, messagesVal)] }

/-- Normalization of a (wrapped or default) handler output
(tool_node.ts lines 121-175). -/
def normalizeOutput (cfg : ToolNodeCfg) (tool : Tool) (call : ToolCall) :
    ToolOutput → CallResult
  | .message m =>
    match cfg.varAssigners with
    | some vars => .cmd (variablesCommand cfg vars m)
    | none => .msg m
  | .command c => .cmd (migrateCommand cfg c)
  | .raw s =>
    .msg { name := some tool.name, content := s, tool_call_id := call.id }

/-- The catch block (tool_node.ts lines 177-206): rethrow when
`handleToolErrors` is off or the error is a graph interrupt; otherwise emit an
`on_tool_error` event and return a `Command` writing an error `ToolMessage`
(whose constructor is given no `status` field) into `messages` and the
caller's agent channel.  `tool_call_id` falls back to `""` when the call has
no id (`call.id ?? ""`). -/
def catchPath (cfg : ToolNodeCfg) (call : ToolCall) (e : Err) :
    Except Err (List ToolErrorEvent × CallResult) :=
  if !cfg.handleToolErrors then .error e
  else if e.isGraphInterrupt then .error e
  else
    let tm : ToolMessageM :=
      { content := "Error: " ++ e.message ++ "\n Please fix your mistakes.",
        name := some call.name,
        tool_call_id := some (call.id.getD "") }
    .ok ([{ toolCall := call, error := e.message }],
      .cmd { update := [("messages", ChannelVal.msgs [Msg.tool tm]),
                        (cfg.channelKey, ChannelVal.msgs [Msg.tool tm])] })

/-- Processing of one tool call inside `run`'s `tool_calls.map` (tool_node.ts
lines 75-207): find the tool (a missing tool throws inside the `try`), run the
wrap hook or the default handler, normalize the output; any exception goes
through `catchPath`. -/
def runToolCall (cfg : ToolNodeCfg) (tools : List Tool)
    (wrapHook : Option WrapBehavior) (call : ToolCall) :
    Except Err (List ToolErrorEvent × CallResult) :=
  match tools.find? fun t => t.name = call.name with
  | none =>
    catchPath cfg call
      { message := "Tool \"" ++ call.name ++ "\" not found.", isGraphInterrupt := false }
  | some tool =>
    let outputE : Except Err ToolOutput :=
      match wrapHook with
      | none => defaultHandler tool call
      | some .callDefault => defaultHandler tool call
      | some (.returns o) => .ok o
      | some (.throws e) => .error e
    match outputE with
    | .error e => catchPath cfg call e
    | .ok output => .ok ([], normalizeOutput cfg tool call output)

/-- The input of `ToolNode.run`: a messages array, or a state object with
per-agent channels, an optional `messages` field and an optional `toolCall`
override. -/
inductive TNInput
  | arr (msgs : List Msg)
  | obj (channels : List (String × List Msg)) (messages : Option (List Msg))
        (toolCall : Option ToolCall)
deriving Repr, DecidableEq

/-- Message extraction at the top of `run` (tool_node.ts lines 64-65):
`Array.isArray(input) ? input : this.channel ? input[this.channel]?.messages
: input.messages`. -/
def extractMessages (channel : Option String) : TNInput → Option (List Msg)
  | .arr ms => some ms
  | .obj chs ms _ =>
    match channel with
    | some c => (chs.find? fun p => p.1 = c).map (·.2)
    | none => ms

/-- `messages ? messages[messages.length - 1] : null` — an empty array also
yields no message. -/
def lastMessage (channel : Option String) (input : TNInput) : Option Msg :=
  (extractMessages channel input).bind List.getLast?

/-- `ToolNode.run` (tool_node.ts lines 63-208): reject inputs whose last
message is missing or not an AI message before any tool is looked up or
invoked; otherwise process `input.toolCall` if present, else every tool call
of the AI message. -/
def toolNodeRun (cfg : ToolNodeCfg) (tools : List Tool)
    (wrapHook : Option WrapBehavior) (input : TNInput) :
    Except Err (List (List ToolErrorEvent × CallResult)) :=
  match lastMessage cfg.channel input with
  | some (.ai _ _ tool_calls) =>
    let calls :=
      match input with
      | .obj _ _ (some tc) => [tc]
      | _ => tool_calls
    calls.mapM (runToolCall cfg tools wrapHook)
  | _ => .error { message := "ToolNode only accepts AIMessages as input.", isGraphInterrupt := false }

end Xpert.ToolNode

namespace Xpert.Selector

/-- An entry of `request.tools` as the selector middleware inspects it: the
duck-typing checks `"name" in tool && typeof tool.name === "string"` and
`"description" in tool` become `Option` fields; `tag` keeps provider-specific
tool dicts distinguishable. -/
structure RTool where
  name : Option String := none
  description : Option String := none
  tag : Nat := 0
deriving Repr, DecidableEq

/-- `typeof tool === "object" && "name" in tool && "description" in tool &&
typeof tool.name === "string"` — a `StructuredToolInterface` instance. -/
def isBaseTool (t : RTool) : Bool :=
  t.name.isSome && t.description.isSome

/-- The selection loop of `processSelectionResponse` (part_004 lines 469-487):
walks the model's `response.tools`, collecting invalid names, and the distinct
valid names while under the `maxTools` limit. -/
def selectLoop (validToolNames : List String) (maxTools : Option Nat)
    (sel inv : List String) : List String → List String × List String
  | [] => (sel, inv)
  | toolName :: rest =>
    if !(validToolNames.contains toolName) then
      selectLoop validToolNames maxTools sel (inv ++ [toolName]) rest
    else if !(sel.contains toolName)
        && (match maxTools with | none => true | some m => sel.length < m) then
      selectLoop validToolNames maxTools (sel ++ [toolName]) inv rest
    else
      selectLoop validToolNames maxTools sel inv rest

/-- `processSelectionResponse` (part_004 lines 456-531): reject any invalid
selection, then pass the selected tools, the always-included tools and the
provider-specific tool dicts to the inner handler. -/
def processSelectionResponse (response : List String) (availableTools : List RTool)
    (validToolNames : List String) (requestTools : List RTool)
    (maxTools : Option Nat) (alwaysInclude : List String) :
    Except String (List RTool) :=
  let looped := selectLoop validToolNames maxTools [] [] response
  let selectedToolNames := looped.1
  let invalidToolSelections := looped.2
  if invalidToolSelections ≠ [] then
    .error ("Model selected invalid tools: " ++ String.intercalate ", " invalidToolSelections)
  else
    let selectedTools := availableTools.filter fun t =>
      match t.name with
      | some n => selectedToolNames.contains n
      | none => false
    let alwaysIncludedTools := requestTools.filter fun t =>
      match t.name with
      | some n => alwaysInclude.contains n
      | none => false
    let providerTools := requestTools.filter fun t => !(isBaseTool t)
    .ok (selectedTools ++ alwaysIncludedTools ++ providerTools)

/-- The spec-level description of the selection: the first `maxTools` distinct
names of the selection, every name being valid. -/
def firstDistinct (maxTools : Option Nat) (acc : List String) :
    List String → List String
  | [] => acc
  | n :: rest =>
    if !(acc.contains n)
        && (match maxTools with | none => true | some m => acc.length < m) then
      firstDistinct maxTools (acc ++ [n]) rest
    else
      firstDistinct maxTools acc rest

end Xpert.Selector

namespace Xpert.ClientTool

/-- A JSON value as `toToolMessage` distinguishes it: a string is kept, null
becomes `""`, anything else is `JSON.stringify`-ed (kept here in stringified
form). -/
inductive JVal
  | str (s : String)
  | nullv
  | other (stringified : String)
deriving Repr, DecidableEq

/-- `ClientToolMessageInput`: the plain-object form of a returned tool
message. -/
structure ClientToolMessageInput where
  tool_call_id : Option String := none
  content : JVal := .nullv
  name : Option String := none
  status : Option String := none
  artifact : Option String := none
deriving Repr, DecidableEq

/-- An element of the resume payload's `toolMessages`: either an actual
`ToolMessage` instance or a plain input object. -/
inductive ClientMsg
  | inst (m : ToolMessageM)
  | input (i : ClientToolMessageInput)
deriving Repr, DecidableEq

/-- `message?.tool_call_id` for either form. -/
def ClientMsg.toolCallId : ClientMsg → Option String
  | .inst m => m.tool_call_id
  | .input i => i.tool_call_id

/-- JS truthiness of a string-or-undefined value: `undefined`, `null` and
`""` are falsy. -/
def truthy (x : Option String) : Option String :=
  match x with
  | none => none
  | some t => if t = "" then none else some t

/-- `toToolMessage` (part_003 lines 241-272): a `ToolMessage` instance passes
through; otherwise `tool_call_id ?? toolCall.id` must be truthy or the run
fails, and the content is normalized to a string. -/
def toToolMessage (message : ClientMsg) (toolCall : ToolCall) :
    Except String ToolMessageM :=
  match message with
  | .inst m => .ok m
  | .input i =>
    let toolCallId :=
      match i.tool_call_id with
      | some t => some t
      | none => toolCall.id
    match toolCallId with
    | none =>
      .error ("Missing tool_call_id for client tool \"" ++ toolCall.name
        ++ "\". Provide tool_call_id in the response or ensure the tool call has an id.")
    | some t =>
      if t = "" then
        .error ("Missing tool_call_id for client tool \"" ++ toolCall.name
          ++ "\". Provide tool_call_id in the response or ensure the tool call has an id.")
      else
        let content :=
          match i.content with
          | .str s => s
          | .nullv => ""
          | .other j => j
        .ok { content := content, name := some (i.name.getD toolCall.name),
              tool_call_id := some t, status := i.status, artifact := i.artifact }

/-- The interrupt payload `ClientToolRequest {clientToolCalls}`. -/
structure ClientToolRequest where
  clientToolCalls : List ToolCall
deriving Repr, DecidableEq

/-- Outcome of the client-tool `wrapToolCall`: either the inner handler was
invoked (`delegated`), or an interrupt was raised and `resumed` is the result
of processing the resume payload. -/
inductive WrapOutcome
  | delegated
  | clientInterrupt (request : ClientToolRequest) (resumed : Except String ToolMessageM)
deriving Repr, DecidableEq

/-- Validation of the resume payload (part_003 lines 308-328).  `resume` is
`response?.toolMessages`; `none` models a missing value or one that is not an
array. -/
def processClientResume (toolCall : ToolCall) (resume : Option (List ClientMsg)) :
    Except String ToolMessageM :=
  match resume with
  | none => .error "Invalid ClientToolResponse: toolMessages must be an array with exactly one item"
  | some [message] =>
    match truthy message.toolCallId, truthy toolCall.id with
    | some mi, some ti =>
      if mi ≠ ti then
        .error ("Invalid ClientToolResponse: tool_call_id \"" ++ mi
          ++ "\" does not match \"" ++ ti ++ "\".")
      else toToolMessage message toolCall
    | _, _ => toToolMessage message toolCall
  | some _ => .error "Invalid ClientToolResponse: toolMessages must be an array with exactly one item"

/-- The client-tool middleware's `wrapToolCall` (part_003 lines 288-329): a
call whose name is not configured is delegated to the inner handler; a client
tool never reaches the handler — it raises a `ClientToolRequest` interrupt
and converts the resume payload. -/
def clientToolWrap (clientTools : List String) (toolCall : ToolCall)
    (resume : Option (List ClientMsg)) : WrapOutcome :=
  if clientTools.isEmpty then .delegated
  else if !(clientTools.contains toolCall.name) then .delegated
  else
    .clientInterrupt { clientToolCalls := [toolCall] }
      (processClientResume toolCall resume)

end Xpert.ClientTool

namespace Xpert.Invoke

/-- Modelled from the spec: the default recursion-limit constant imported from
`@metad/copilot` (its source is not under src/; the claims only depend on the
`??` fallback, not on the numeric value). -/
def AgentRecursionLimit : Nat := 25

/-- `team.agentConfig?.recursionLimit ?? AgentRecursionLimit`
(invoke.handler.ts line 197). -/
def effectiveRecursionLimit (teamRecursionLimit : Option Nat) : Nat :=
  teamRecursionLimit.getD AgentRecursionLimit

/-- An error escaping the graph stream, as the `catchError` block inspects it
(`err instanceof GraphRecursionError`). -/
structure GraphErr where
  message : String
  isGraphRecursionError : Bool
deriving Repr, DecidableEq

/-- Modelled from the spec: langgraph's executor raises a
`GraphRecursionError` once the total step count exceeds `recursionLimit`
("hard ceiling on total step count"; langgraph itself is an external
dependency, not part of this repository's sources). -/
def runGraphSteps (recursionLimit steps : Nat) : Except GraphErr Unit :=
  if steps > recursionLimit then
    .error { message := "Recursion limit of " ++ toString recursionLimit ++ " reached",
             isGraphRecursionError := true }
  else .ok ()

/-- Modelled from the spec: the i18n translation of
`xpert.Error.RecursionLimitReached` for the user's language with the limit as
argument (the translation resource files are not under src/). -/
def recursionLimitReachedMessage (languageCode : String) (recursionLimit : Nat) : String :=
  "RecursionLimitReached[" ++ languageCode ++ "]: " ++ toString recursionLimit

/-- What the stream's `catchError` block produces (invoke.handler.ts lines
229-249): it always records the last state/checkpoint first
(`recordLastState`), then rethrows — a `GraphRecursionError` is replaced by an
error carrying the localized message, anything else is rethrown as is. -/
structure CaughtOutcome where
  recordedLastState : Bool
  thrown : String
deriving Repr, DecidableEq

/-- The `catchError` block itself. -/
def streamCatchError (languageCode : String) (recursionLimit : Nat)
    (err : GraphErr) : CaughtOutcome :=
  { recordedLastState := true,
    thrown :=
      if err.isGraphRecursionError then
        recursionLimitReachedMessage languageCode recursionLimit
      else err.message }

/-- The run outcome as far as recursion is concerned: the graph is streamed
with `recursionLimit` taken from the team config with the `AgentRecursionLimit`
fallback, and a raised error goes through `streamCatchError`. -/
def invokeRunOutcome (teamRecursionLimit : Option Nat) (steps : Nat)
    (languageCode : String) : Except CaughtOutcome Unit :=
  let recursionLimit := effectiveRecursionLimit teamRecursionLimit
  match runGraphSteps recursionLimit steps with
  | .ok () => .ok ()
  | .error e => .error (streamCatchError languageCode recursionLimit e)

/-- The execution-status enum.  Its declaration file
(`xpert-agent-execution.model.ts`) is not under src/; the constructor set is
modelled from the spec's status set
{RUNNING, SUCCESS, ERROR, INTERRUPTED, ABORTED}. -/
inductive ExecStatus
  | running
  | success
  | error
  | interrupted
  | aborted
deriving Repr, DecidableEq

/-- The fields of the `XpertAgentExecutionUpsertCommand` issued on client
disconnect (invoke.handler.ts lines 305-313). -/
structure ExecutionUpsert where
  status : ExecStatus
  error : Option String
deriving Repr, DecidableEq

/-- What the `unsubscribe` tap does (invoke.handler.ts lines 283-316). -/
structure UnsubscribeOutcome where
  abortTriggered : Bool
  upsert : ExecutionUpsert
deriving Repr, DecidableEq

/-- The `unsubscribe` handler of the run stream: abort the run-level
controller unless it is already aborted, then record the execution row with
status `ERROR` and error text `Aborted!`. -/
def onUnsubscribe (alreadyAborted : Bool) : UnsubscribeOutcome :=
  { abortTriggered := !alreadyAborted,
    upsert := { status := .error, error := some "Aborted!" } }

end Xpert.Invoke

namespace Xpert.Subgraph

/-- A middleware as the model-call composition sees it: just its optional
`wrapModelCall` hook, over abstract request/response types. -/
structure MiddlewareM (Req Resp : Type) where
  wrapModelCall : Option (Req → (Req → Resp) → Resp) := none

/-- The composition of `wrapModelCall` hooks around the core model handler
(subgraph.handler.ts lines 848-856):
`agentMiddlewares.reduceRight((next, middleware) => ... , defaultModelHandler)`.
JS `reduceRight` over a list is `List.foldr`. -/
def wrappedModelHandler {Req Resp : Type} (agentMiddlewares : List (MiddlewareM Req Resp))
    (defaultModelHandler : Req → Resp) : Req → Resp :=
  agentMiddlewares.foldr
    (fun middleware next =>
      match middleware.wrapModelCall with
      | none => next
      | some w => fun request => w request next)
    defaultModelHandler

/-- A trace-recording middleware: its wrapper appends `tag` to the request
(a list of the wrapper names seen so far, outermost first) before passing it
on. -/
def traceMiddleware (tag : String) : MiddlewareM (List String) (List String) :=
  { wrapModelCall := some fun request next => next (request ++ [tag]) }

/-- A trace-recording core handler: returns the request it finally receives. -/
def traceCore : List String → List String := id

end Xpert.Subgraph

namespace Xpert

/-- `true` on `Except.error`. -/
def isError {ε α : Type _} : Except ε α → Bool
  | .error _ => true
  | .ok _ => false

end Xpert

namespace Xpert.Hitl

/-- A decision is acceptable to `processDecision` for a given interrupt tool
call: its type is among the allowed decisions of the matching config, and an
edit decision actually carries an edited action. -/
def decisionOK (resolved : List (String × InterruptOnConfig))
    (p : Decision × ToolCall) : Bool :=
  let cfg := (lookupCfg resolved p.2.name).getD { allowedDecisions := [] }
  cfg.allowedDecisions.contains p.1.dtype &&
    (match p.1 with
     | .edit none => false
     | _ => true)

/-- The revised tool call `processDecision` produces for an acceptable
decision: approvals and rejections keep the call, an edit replaces name and
args but keeps the id. -/
def revisedOf (d : Decision) (c : ToolCall) : ToolCall :=
  match d with
  | .approve => c
  | .edit (some a) => { id := c.id, name := a.name, args := a.args }
  | .edit none => c
  | .reject _ => c

/-- Claim-level description of the calls surviving the decision loop: all
revised calls when nothing was rejected, only the rejected ones otherwise. -/
def specKeptCalls (hasRejected : Bool) (pairs : List (Decision × ToolCall)) :
    List ToolCall :=
  pairs.filterMap fun p =>
    if !hasRejected || p.1.dtype = .reject then some (revisedOf p.1 p.2) else none

/-- The interrupt tool calls whose decision was a rejection, unchanged. -/
def specRejectedCalls (pairs : List (Decision × ToolCall)) : List ToolCall :=
  pairs.filterMap fun p => if p.1.dtype = .reject then some p.2 else none

/-- Claim-level description of the synthetic tool messages: one per rejected
call, with `status := "error"` and the human message (or the default text) as
content. -/
def specRejectMessages (pairs : List (Decision × ToolCall)) : List ToolMessageM :=
  pairs.filterMap fun p =>
    match p.1 with
    | .reject message =>
      some { content := message.getD (defaultRejectText p.2), name := some p.2.name,
             tool_call_id := p.2.id, status := some "error" }
    | _ => none

end Xpert.Hitl

namespace Xpert.Hitl

/-- Unfolding of `hitlAfterModel` in the interrupt case: when the last AI
message of the channel has tool calls and at least one of them matches the
resolved `interruptOn` record, the hook raises exactly one interrupt with the
built `HITLRequest` and hands the resume payload to `hitlResume`. -/
theorem hitlAfterModel_interrupts (options : HitlOptions) (messages : List Msg)
    (resume : Option (List Decision)) (mid : Option String) (content : String)
    (calls : List ToolCall) (io : List (String × InterruptOnValue))
    (hfind : messages.reverse.find? Msg.isAI = some (.ai mid content calls))
    (hio : options.interruptOn = some io)
    (hInt : (calls.filter fun c => (lookupCfg (resolvedConfigs io) c.name).isSome) ≠ []) :
    hitlAfterModel options messages resume =
      .interrupted
        (buildHitlRequest options (resolvedConfigs io)
          (calls.filter fun c => (lookupCfg (resolvedConfigs io) c.name).isSome))
        (hitlResume (resolvedConfigs io) mid content
          (calls.filter fun c => (lookupCfg (resolvedConfigs io) c.name).isNone)
          (calls.filter fun c => (lookupCfg (resolvedConfigs io) c.name).isSome)
          resume) := by
  have hmsg : messages.isEmpty = false := by
    cases messages with
    | nil => simp at hfind
    | cons a l => rfl
  have hcalls : calls.isEmpty = false := by
    cases calls with
    | nil => simp at hInt
    | cons a l => rfl
  rw [hitlAfterModel, hmsg]
  simp only [Bool.false_eq_true, if_false, hfind, hio, hcalls]
  simp [List.isEmpty_iff, hInt]

/-- `processDecision` on an acceptable decision: the revised call is
`revisedOf`, and a synthetic error message is produced exactly for a
rejection. -/
theorem processDecision_ok (resolved : List (String × InterruptOnConfig))
    (d : Decision) (c : ToolCall)
    (hOK : decisionOK resolved (d, c) = true) :
    processDecision d c ((lookupCfg resolved c.name).getD { allowedDecisions := [] }) =
      .ok (revisedOf d c,
        match d with
        | .reject message =>
          some { content := message.getD (defaultRejectText c), name := some c.name,
                 tool_call_id := c.id, status := some "error" }
        | _ => none) := by
  unfold decisionOK at hOK
  cases d with
  | approve =>
    simp only [Decision.dtype, Bool.and_eq_true] at hOK
    simp only [processDecision, hOK.1, if_true, revisedOf]
  | edit editedAction =>
    cases editedAction with
    | none => simp at hOK
    | some a =>
      simp only [Decision.dtype, Bool.and_eq_true] at hOK
      simp only [processDecision, hOK.1, if_true, revisedOf]
  | reject message =>
    simp only [Decision.dtype, Bool.and_eq_true] at hOK
    simp only [processDecision, hOK.1, if_true, revisedOf]

/-- The decision loop on acceptable decisions never throws and computes the
claim-level kept calls and synthetic messages. -/
theorem processDecisions_spec (resolved : List (String × InterruptOnConfig))
    (hasRejected : Bool) (pairs : List (Decision × ToolCall))
    (hOK : ∀ p ∈ pairs, decisionOK resolved p = true) :
    processDecisions resolved hasRejected pairs =
      .ok (specKeptCalls hasRejected pairs, specRejectMessages pairs) := by
  induction pairs with
  | nil => rfl
  | cons p rest ih =>
    obtain ⟨d, c⟩ := p
    have hhead := hOK (d, c) (by simp)
    have htail : ∀ q ∈ rest, decisionOK resolved q = true := fun q hq => hOK q (by simp [hq])
    rw [processDecisions, processDecision_ok resolved d c hhead, ih htail]
    cases d with
    | approve =>
      cases hasRejected <;>
        simp [specKeptCalls, specRejectMessages, Decision.dtype, Bind.bind, Except.bind]
    | edit editedAction =>
      cases hasRejected <;>
        simp [specKeptCalls, specRejectMessages, Decision.dtype, Bind.bind, Except.bind]
    | reject message =>
      cases hasRejected <;>
        simp [specKeptCalls, specRejectMessages, Decision.dtype, Bind.bind, Except.bind]

/-- With a rejection present, the kept calls are exactly the rejected calls,
unchanged. -/
theorem specKeptCalls_true (pairs : List (Decision × ToolCall)) :
    specKeptCalls true pairs = specRejectedCalls pairs := by
  induction pairs with
  | nil => rfl
  | cons p rest ih =>
    obtain ⟨d, c⟩ := p
    cases d with
    | approve => simp [specKeptCalls, specRejectedCalls, Decision.dtype] at ih ⊢; exact ih
    | edit editedAction => simp [specKeptCalls, specRejectedCalls, Decision.dtype] at ih ⊢; exact ih
    | reject message =>
      simp [specKeptCalls, specRejectedCalls, Decision.dtype, revisedOf] at ih ⊢; exact ih

/-- Every synthetic message of the decision loop carries `status = "error"`. -/
theorem specRejectMessages_status (pairs : List (Decision × ToolCall)) :
    ∀ m ∈ specRejectMessages pairs, m.status = some "error" := by
  induction pairs with
  | nil => intro m hm; simp [specRejectMessages] at hm
  | cons p rest ih =>
    intro m hm
    obtain ⟨d, c⟩ := p
    cases d with
    | approve => simpa [specRejectMessages] using ih m (by simpa [specRejectMessages] using hm)
    | edit editedAction =>
      simpa [specRejectMessages] using ih m (by simpa [specRejectMessages] using hm)
    | reject message =>
      rw [specRejectMessages] at hm
      simp only [List.filterMap_cons] at hm
      rcases (List.mem_cons).mp hm with h | h
      · simp [h]
      · exact ih m h

end Xpert.Hitl

namespace Xpert.Hitl

/-- C6: if `interruptOn` matches `k` tool calls of the last AI message, the
HITL afterModel hook raises a single interrupt carrying all `k` action
requests (with the matched tool names), and resume processing throws whenever
the decisions payload is not an array (`none`) or is an array whose length is
not exactly `k` — shorter and longer lists alike. -/
theorem c6_hitl_decision_count (options : HitlOptions) (messages : List Msg)
    (mid : Option String) (content : String) (calls : List ToolCall)
    (io : List (String × InterruptOnValue)) (k : Nat)
    (hfind : messages.reverse.find? Msg.isAI = some (.ai mid content calls))
    (hio : options.interruptOn = some io)
    (hk : k = (calls.filter fun c => (lookupCfg (resolvedConfigs io) c.name).isSome).length)
    (hkpos : 0 < k) :
    (∀ resume, hitlAfterModel options messages resume =
      .interrupted
        (buildHitlRequest options (resolvedConfigs io)
          (calls.filter fun c => (lookupCfg (resolvedConfigs io) c.name).isSome))
        (hitlResume (resolvedConfigs io) mid content
          (calls.filter fun c => (lookupCfg (resolvedConfigs io) c.name).isNone)
          (calls.filter fun c => (lookupCfg (resolvedConfigs io) c.name).isSome)
          resume))
    ∧ (buildHitlRequest options (resolvedConfigs io)
        (calls.filter fun c => (lookupCfg (resolvedConfigs io) c.name).isSome)).actionRequests.length = k
    ∧ (buildHitlRequest options (resolvedConfigs io)
        (calls.filter fun c => (lookupCfg (resolvedConfigs io) c.name).isSome)).actionRequests.map
          ActionRequest.name =
        (calls.filter fun c => (lookupCfg (resolvedConfigs io) c.name).isSome).map ToolCall.name
    ∧ (hitlAfterModel options messages none).resumeErrored = true
    ∧ ∀ ds : List Decision, ds.length ≠ k →
        (hitlAfterModel options messages (some ds)).resumeErrored = true := by
  have hne : (calls.filter fun c => (lookupCfg (resolvedConfigs io) c.name).isSome) ≠ [] := by
    intro hnil
    rw [hnil] at hk
    simp at hk
    omega
  have hmain := fun resume =>
    hitlAfterModel_interrupts options messages resume mid content calls io hfind hio hne
  refine ⟨hmain, ?_, ?_, ?_, ?_⟩
  · simp [buildHitlRequest, hk]
  · simp [buildHitlRequest, buildActionRequest]
  · rw [hmain none]
    simp [hitlResume, HitlOutcome.resumeErrored]
  · intro ds hds
    rw [hmain (some ds)]
    have hcond : ds.length ≠
        (calls.filter fun c => (lookupCfg (resolvedConfigs io) c.name).isSome).length := by
      rw [← hk]; exact hds
    simp [hitlResume, hcond, HitlOutcome.resumeErrored]

/-- C6 witness: one matching tool call, so one action request; an empty
decision list and a two-element decision list are both rejected. -/
theorem c6_hitl_decision_count_witness :
    (hitlAfterModel { interruptOn := some [("dangerous", InterruptOnValue.flag true)] }
      [Msg.ai none "c" [⟨some "t9", "dangerous", "x"⟩]] none).resumeErrored = true
    ∧ (hitlAfterModel { interruptOn := some [("dangerous", InterruptOnValue.flag true)] }
      [Msg.ai none "c" [⟨some "t9", "dangerous", "x"⟩]]
      (some [Decision.approve, Decision.approve])).resumeErrored = true := by
  have h := c6_hitl_decision_count
    { interruptOn := some [("dangerous", InterruptOnValue.flag true)] }
    [Msg.ai none "c" [⟨some "t9", "dangerous", "x"⟩]]
    none "c" [⟨some "t9", "dangerous", "x"⟩]
    [("dangerous", InterruptOnValue.flag true)] 1
    (by decide) rfl (by decide) (by decide)
  exact ⟨h.2.2.2.1, h.2.2.2.2 [Decision.approve, Decision.approve] (by decide)⟩

end Xpert.Hitl

namespace Xpert.Hitl

/-- C1 (amended): when at least one resume decision is a rejection (and every
decision is acceptable), the afterModel hook rewrites the tool calls of the
last AI message to the auto-approved (non-matching) calls followed by exactly
the rejected interrupt calls, appends one synthetic ToolMessage per rejected
call with `status = "error"` and the human message (or the default rejection
text) as content, and returns `jumpTo = "model"`. -/
theorem c1_hitl_reject_amended (options : HitlOptions) (messages : List Msg)
    (mid : Option String) (content : String) (calls : List ToolCall)
    (io : List (String × InterruptOnValue)) (ds : List Decision)
    (hfind : messages.reverse.find? Msg.isAI = some (.ai mid content calls))
    (hio : options.interruptOn = some io)
    (hInt : (calls.filter fun c => (lookupCfg (resolvedConfigs io) c.name).isSome) ≠ [])
    (hlen : ds.length =
      (calls.filter fun c => (lookupCfg (resolvedConfigs io) c.name).isSome).length)
    (hOK : ∀ p ∈ ds.zip (calls.filter fun c => (lookupCfg (resolvedConfigs io) c.name).isSome),
      decisionOK (resolvedConfigs io) p = true)
    (hrej : (ds.any fun d => d.dtype = .reject) = true) :
    hitlAfterModel options messages (some ds) =
      .interrupted
        (buildHitlRequest options (resolvedConfigs io)
          (calls.filter fun c => (lookupCfg (resolvedConfigs io) c.name).isSome))
        (.ok { messages :=
                 Msg.ai mid content
                   ((calls.filter fun c => (lookupCfg (resolvedConfigs io) c.name).isNone)
                     ++ specRejectedCalls
                         (ds.zip (calls.filter fun c =>
                           (lookupCfg (resolvedConfigs io) c.name).isSome)))
                 :: (specRejectMessages
                       (ds.zip (calls.filter fun c =>
                         (lookupCfg (resolvedConfigs io) c.name).isSome))).map Msg.tool,
               jumpTo := some "model" })
    ∧ ∀ m ∈ specRejectMessages
        (ds.zip (calls.filter fun c => (lookupCfg (resolvedConfigs io) c.name).isSome)),
        m.status = some "error" := by
  refine ⟨?_, specRejectMessages_status _⟩
  rw [hitlAfterModel_interrupts options messages (some ds) mid content calls io hfind hio hInt]
  rw [hitlResume]
  simp only [hlen, ne_eq, not_true_eq_false, if_false, hrej,
    processDecisions_spec _ _ _ hOK, specKeptCalls_true]
  simp

/-- C1 counterexample: the model emitted an auto-approved call (`safe`, not in
`interruptOn`) next to the interrupt call (`dangerous`); after resuming with a
single rejection, the rewritten AI message keeps both calls, so its
`tool_calls` are not only the rejected ones. -/
theorem c1_hitl_reject_counterexample :
    hitlAfterModel { interruptOn := some [("dangerous", InterruptOnValue.flag true)] }
        [Msg.ai (some "m1") "c" [⟨some "t1", "safe", "a1"⟩, ⟨some "t9", "dangerous", "a2"⟩]]
        (some [Decision.reject (some "nope")]) =
      HitlOutcome.interrupted
        ⟨[⟨"dangerous", "a2",
           "Tool execution requires approval\n\nTool: dangerous\nArgs: a2"⟩],
         [⟨"dangerous", [.approve, .edit, .reject], none⟩]⟩
        (.ok ⟨[Msg.ai (some "m1") "c"
                 [⟨some "t1", "safe", "a1"⟩, ⟨some "t9", "dangerous", "a2"⟩],
               Msg.tool ⟨some "dangerous", "nope", some "t9", some "error", none⟩],
              some "model"⟩)
    ∧ [(⟨some "t1", "safe", "a1"⟩ : ToolCall), ⟨some "t9", "dangerous", "a2"⟩] ≠
        [⟨some "t9", "dangerous", "a2"⟩] := by
  constructor
  · decide
  · decide

/-- C1 witness: one auto-approved and one rejected call; the amended theorem
applied at that input. -/
theorem c1_hitl_reject_amended_witness :
    hitlAfterModel { interruptOn := some [("dangerous", InterruptOnValue.flag true)] }
        [Msg.ai (some "m1") "c" [⟨some "t1", "safe", "a1"⟩, ⟨some "t9", "dangerous", "a2"⟩]]
        (some [Decision.reject (some "nope")]) =
      .interrupted
        (buildHitlRequest { interruptOn := some [("dangerous", InterruptOnValue.flag true)] }
          (resolvedConfigs [("dangerous", InterruptOnValue.flag true)])
          ([⟨some "t1", "safe", "a1"⟩, ⟨some "t9", "dangerous", "a2"⟩].filter fun c =>
            (lookupCfg (resolvedConfigs [("dangerous", InterruptOnValue.flag true)]) c.name).isSome))
        (.ok { messages :=
                 Msg.ai (some "m1") "c"
                   (([⟨some "t1", "safe", "a1"⟩, ⟨some "t9", "dangerous", "a2"⟩].filter fun c =>
                       (lookupCfg (resolvedConfigs [("dangerous", InterruptOnValue.flag true)]) c.name).isNone)
                     ++ specRejectedCalls
                         ([Decision.reject (some "nope")].zip
                           ([⟨some "t1", "safe", "a1"⟩, ⟨some "t9", "dangerous", "a2"⟩].filter fun c =>
                             (lookupCfg (resolvedConfigs [("dangerous", InterruptOnValue.flag true)]) c.name).isSome)))
                 :: (specRejectMessages
                       ([Decision.reject (some "nope")].zip
                         ([⟨some "t1", "safe", "a1"⟩, ⟨some "t9", "dangerous", "a2"⟩].filter fun c =>
                           (lookupCfg (resolvedConfigs [("dangerous", InterruptOnValue.flag true)]) c.name).isSome))).map Msg.tool,
               jumpTo := some "model" }) :=
  (c1_hitl_reject_amended
    { interruptOn := some [("dangerous", InterruptOnValue.flag true)] }
    [Msg.ai (some "m1") "c" [⟨some "t1", "safe", "a1"⟩, ⟨some "t9", "dangerous", "a2"⟩]]
    (some "m1") "c" [⟨some "t1", "safe", "a1"⟩, ⟨some "t9", "dangerous", "a2"⟩]
    [("dangerous", InterruptOnValue.flag true)]
    [Decision.reject (some "nope")]
    (by decide) rfl (by decide) (by decide) (by decide) (by decide)).1

end Xpert.Hitl

namespace Xpert.ToolNode

/-- C10: whenever the extracted last message (of the input array, of the
configured agent channel, or of `input.messages`) is missing or is not an AI
message, `ToolNode.run` throws `ToolNode only accepts AIMessages as input.`
before any tool is looked up or invoked — the result does not depend on the
tools, the wrap hook or the tool calls. -/
theorem c10_toolnode_requires_ai (cfg : ToolNodeCfg) (tools : List Tool)
    (wrapHook : Option WrapBehavior) (input : TNInput)
    (h : ∀ m, lastMessage cfg.channel input = some m → m.getType ≠ "ai") :
    toolNodeRun cfg tools wrapHook input =
      .error { message := "ToolNode only accepts AIMessages as input.",
               isGraphInterrupt := false } := by
  cases hm : lastMessage cfg.channel input with
  | none => simp [toolNodeRun, hm]
  | some m =>
    cases m with
    | ai mid content tcs => exact absurd rfl (h _ hm)
    | tool t => simp [toolNodeRun, hm]
    | human c => simp [toolNodeRun, hm]

/-- C10 witness: a human message as the last input message makes the node
throw. -/
theorem c10_toolnode_requires_ai_witness :
    toolNodeRun {} [] none (.arr [Msg.human "hello"]) =
      .error { message := "ToolNode only accepts AIMessages as input.",
               isGraphInterrupt := false } :=
  c10_toolnode_requires_ai {} [] none (.arr [Msg.human "hello"])
    (by intro m hm; simp [lastMessage, extractMessages] at hm; subst hm; decide)

/-- C3 (amended): for a tool call whose tool throws, the node rethrows when
`handleToolErrors` is false, rethrows graph interrupts even when it is true,
and otherwise emits an `on_tool_error` event and returns a `Command` writing a
ToolMessage — constructed without a `status` field (so its status is the
langchain default, not `"error"`) — whose content begins with `Error: ` into
both `messages` and the caller's agent channel. -/
theorem c3_tool_error_paths (cfg : ToolNodeCfg) (tools : List Tool) (tool : Tool)
    (call : ToolCall) (e : Err)
    (hfind : (tools.find? fun t => t.name = call.name) = some tool)
    (hbeh : tool.behavior = .throws e) :
    (cfg.handleToolErrors = false → runToolCall cfg tools none call = .error e)
    ∧ (e.isGraphInterrupt = true → cfg.handleToolErrors = true →
        runToolCall cfg tools none call = .error e)
    ∧ (cfg.handleToolErrors = true → e.isGraphInterrupt = false →
        ∃ tm : ToolMessageM,
          runToolCall cfg tools none call =
            .ok ([{ toolCall := call, error := e.message }],
              .cmd { update := [("messages", .msgs [.tool tm]),
                                (cfg.channelKey, .msgs [.tool tm])] })
          ∧ tm = { name := some call.name,
                   content := "Error: " ++ e.message ++ "\n Please fix your mistakes.",
                   tool_call_id := some (call.id.getD "") }
          ∧ ∃ rest, tm.content = "Error: " ++ rest) := by
  refine ⟨?_, ?_, ?_⟩
  · intro hoff
    simp [runToolCall, hfind, defaultHandler, hbeh, catchPath, hoff]
  · intro hint hon
    simp [runToolCall, hfind, defaultHandler, hbeh, catchPath, hint, hon]
  · intro hon hint
    refine ⟨_, ?_, rfl, ⟨e.message ++ "\n Please fix your mistakes.",
      by rw [String.append_assoc]⟩⟩
    simp [runToolCall, hfind, defaultHandler, hbeh, catchPath, hon, hint]

/-- C3 counterexample: a plain tool error with `handleToolErrors` left at its
default produces a ToolMessage whose `status` is not `"error"` — the catch
block passes no `status` to the constructor (tool_node.ts lines 193-197). -/
theorem c3_tool_error_status_counterexample :
    runToolCall {} [⟨"add", .throws ⟨"boom", false⟩⟩] none ⟨some "t1", "add", "x"⟩ =
      .ok ([{ toolCall := ⟨some "t1", "add", "x"⟩, error := "boom" }],
        .cmd ⟨[("messages", .msgs [.tool ⟨some "add",
                 "Error: boom\n Please fix your mistakes.", some "t1", none, none⟩]),
               ("null", .msgs [.tool ⟨some "add",
                 "Error: boom\n Please fix your mistakes.", some "t1", none, none⟩])]⟩)
    ∧ ToolMessageM.status ⟨some "add",
        "Error: boom\n Please fix your mistakes.", some "t1", none, none⟩ ≠ some "error" := by
  constructor
  · decide
  · decide

/-- C3 witness: the amended theorem applied to a throwing `add` tool, for all
three branches. -/
theorem c3_tool_error_paths_witness :
    (runToolCall { handleToolErrors := false } [⟨"add", .throws ⟨"boom", false⟩⟩]
        none ⟨some "t1", "add", "x"⟩ = .error ⟨"boom", false⟩)
    ∧ (runToolCall {} [⟨"add", .throws ⟨"interrupted", true⟩⟩]
        none ⟨some "t1", "add", "x"⟩ = .error ⟨"interrupted", true⟩)
    ∧ ∃ tm : ToolMessageM,
        runToolCall {} [⟨"add", .throws ⟨"boom", false⟩⟩] none ⟨some "t1", "add", "x"⟩ =
          .ok ([{ toolCall := ⟨some "t1", "add", "x"⟩, error := "boom" }],
            .cmd { update := [("messages", .msgs [.tool tm]), ("null", .msgs [.tool tm])] })
        ∧ tm = { name := some "add", content := "Error: boom\n Please fix your mistakes.",
                 tool_call_id := some "t1" }
        ∧ ∃ rest, tm.content = "Error: " ++ rest := by
  refine ⟨?_, ?_, ?_⟩
  · exact (c3_tool_error_paths { handleToolErrors := false }
      [⟨"add", .throws ⟨"boom", false⟩⟩] ⟨"add", .throws ⟨"boom", false⟩⟩
      ⟨some "t1", "add", "x"⟩ ⟨"boom", false⟩ (by decide) rfl).1 rfl
  · exact (c3_tool_error_paths {} [⟨"add", .throws ⟨"interrupted", true⟩⟩]
      ⟨"add", .throws ⟨"interrupted", true⟩⟩
      ⟨some "t1", "add", "x"⟩ ⟨"interrupted", true⟩ (by decide) rfl).2.1 rfl rfl
  · exact (c3_tool_error_paths {} [⟨"add", .throws ⟨"boom", false⟩⟩]
      ⟨"add", .throws ⟨"boom", false⟩⟩
      ⟨some "t1", "add", "x"⟩ ⟨"boom", false⟩ (by decide) rfl).2.2 rfl rfl

end Xpert.ToolNode

namespace Xpert.ToolNode

/-- C2: every ToolMessage the runtime builds for a tool call carries the id of
that call — the default handler wrapping a raw tool result, the outer
normalization of a raw wrapper result, and the error path all use the id of
the processed call, and the HITL edit decision replaces name and args but
keeps the original id. -/
theorem c2_tool_call_id_correspondence (tool : Tool) (call : ToolCall)
    (i s : String) (cfg : ToolNodeCfg) (e : Err)
    (a : Hitl.Action) (config : Hitl.InterruptOnConfig)
    (hid : call.id = some i)
    (hbeh : tool.behavior = .returns (.raw s))
    (hhandle : cfg.handleToolErrors = true)
    (hint : e.isGraphInterrupt = false)
    (hedit : config.allowedDecisions.contains .edit = true) :
    defaultHandler tool call =
      .ok (.message { name := some tool.name, content := s, tool_call_id := some i })
    ∧ normalizeOutput cfg tool call (.raw s) =
      .msg { name := some tool.name, content := s, tool_call_id := some i }
    ∧ (∃ ms tm, catchPath cfg call e =
          .ok (ms, .cmd { update := [("messages", .msgs [.tool tm]),
                                     (cfg.channelKey, .msgs [.tool tm])] })
        ∧ tm.tool_call_id = some i)
    ∧ Hitl.processDecision (.edit (some a)) call config =
      .ok ({ id := some i, name := a.name, args := a.args }, none) := by
  refine ⟨?_, ?_, ?_, ?_⟩
  · simp [defaultHandler, hbeh, hid]
  · simp [normalizeOutput, hid]
  · refine ⟨[{ toolCall := call, error := e.message }],
      { name := some call.name,
        content := "Error: " ++ e.message ++ "\n Please fix your mistakes.",
        tool_call_id := some (call.id.getD "") }, ?_, ?_⟩
    · simp [catchPath, hhandle, hint]
    · simp [hid]
  · simp only [Hitl.processDecision, hedit, if_true]
    rw [hid]

/-- C2 witness: a raw-returning tool, a throwing tool and an edited decision,
all at call id `t1`. -/
theorem c2_tool_call_id_correspondence_witness :
    defaultHandler ⟨"add", .returns (.raw "5")⟩ ⟨some "t1", "add", "x"⟩ =
      .ok (.message { name := some "add", content := "5", tool_call_id := some "t1" })
    ∧ normalizeOutput {} ⟨"add", .returns (.raw "5")⟩ ⟨some "t1", "add", "x"⟩ (.raw "5") =
      .msg { name := some "add", content := "5", tool_call_id := some "t1" }
    ∧ (∃ ms tm, catchPath {} ⟨some "t1", "add", "x"⟩ ⟨"boom", false⟩ =
          .ok (ms, .cmd { update := [("messages", .msgs [.tool tm]),
                                     (ToolNodeCfg.channelKey {}, .msgs [.tool tm])] })
        ∧ tm.tool_call_id = some "t1")
    ∧ Hitl.processDecision (.edit (some ⟨"multiply", "y"⟩)) ⟨some "t1", "add", "x"⟩
        { allowedDecisions := [.approve, .edit, .reject] } =
      .ok ({ id := some "t1", name := "multiply", args := "y" }, none) :=
  c2_tool_call_id_correspondence ⟨"add", .returns (.raw "5")⟩ ⟨some "t1", "add", "x"⟩
    "t1" "5" {} ⟨"boom", false⟩ ⟨"multiply", "y"⟩
    { allowedDecisions := [.approve, .edit, .reject] }
    rfl rfl rfl rfl (by decide)

end Xpert.ToolNode

namespace Xpert.Selector

/-- The invalid-name accumulator of the selection loop collects exactly the
names outside `validToolNames`, in order. -/
theorem selectLoop_invalid (validToolNames : List String) (maxTools : Option Nat) :
    ∀ (resp sel inv : List String),
      (selectLoop validToolNames maxTools sel inv resp).2 =
        inv ++ resp.filter fun n => !(validToolNames.contains n) := by
  intro resp
  induction resp with
  | nil => intro sel inv; simp [selectLoop]
  | cons n rest ih =>
    intro sel inv
    cases h : validToolNames.contains n with
    | true =>
      have hf : List.filter (fun m => !validToolNames.contains m) (n :: rest) =
          List.filter (fun m => !validToolNames.contains m) rest := by
        rw [List.filter_cons, h]; rfl
      rw [hf]
      simp only [selectLoop, h, Bool.not_true, Bool.false_eq_true, if_false]
      split
      · exact ih _ _
      · exact ih _ _
    | false =>
      have hf : List.filter (fun m => !validToolNames.contains m) (n :: rest) =
          n :: List.filter (fun m => !validToolNames.contains m) rest := by
        rw [List.filter_cons, h]; rfl
      rw [hf]
      simp only [selectLoop, h, Bool.not_false, if_true]
      rw [ih]
      simp [List.append_assoc]

/-- On an all-valid selection the loop computes the first `maxTools` distinct
names. -/
theorem selectLoop_selected (validToolNames : List String) (maxTools : Option Nat) :
    ∀ (resp sel inv : List String), (∀ n ∈ resp, validToolNames.contains n = true) →
      (selectLoop validToolNames maxTools sel inv resp).1 =
        firstDistinct maxTools sel resp := by
  intro resp
  induction resp with
  | nil => intro sel inv _; simp [selectLoop, firstDistinct]
  | cons n rest ih =>
    intro sel inv hvalid
    have h := hvalid n (by simp)
    have htail : ∀ m ∈ rest, validToolNames.contains m = true := fun m hm =>
      hvalid m (by simp [hm])
    simp only [selectLoop, firstDistinct]
    simp only [h, Bool.not_true, Bool.false_eq_true, if_false]
    split
    · rw [ih _ _ htail]
    · rw [ih _ _ htail]

/-- C4: in `processSelectionResponse`, a selection naming any tool outside the
selectable names fails with an error; an all-valid selection gives the inner
handler the available tools filtered to the first `maxTools` distinct selected
names, then every always-included tool from the request, then the
provider-specific tool dicts; in particular, with `maxTools = 3`,
`alwaysInclude = [search]` and selection `[a, b, c, d]`, the tools are exactly
`a, b, c, search` plus the provider dicts. -/
theorem c4_tool_selector (response : List String) (availableTools : List RTool)
    (validToolNames : List String) (requestTools : List RTool)
    (maxTools : Option Nat) (alwaysInclude : List String) :
    ((∃ n ∈ response, validToolNames.contains n = false) →
      ∃ msg, processSelectionResponse response availableTools validToolNames
        requestTools maxTools alwaysInclude = .error msg)
    ∧ ((∀ n ∈ response, validToolNames.contains n = true) →
      processSelectionResponse response availableTools validToolNames
          requestTools maxTools alwaysInclude =
        .ok ((availableTools.filter fun t =>
               match t.name with
               | some n => (firstDistinct maxTools [] response).contains n
               | none => false)
          ++ (requestTools.filter fun t =>
               match t.name with
               | some n => alwaysInclude.contains n
               | none => false)
          ++ requestTools.filter fun t => !(isBaseTool t)))
    ∧ processSelectionResponse ["a", "b", "c", "d"]
        [⟨some "a", some "da", 0⟩, ⟨some "b", some "db", 0⟩, ⟨some "c", some "dc", 0⟩,
         ⟨some "d", some "dd", 0⟩, ⟨some "e", some "de", 0⟩]
        ["a", "b", "c", "d", "e"]
        [⟨some "a", some "da", 0⟩, ⟨some "b", some "db", 0⟩, ⟨some "c", some "dc", 0⟩,
         ⟨some "d", some "dd", 0⟩, ⟨some "e", some "de", 0⟩, ⟨some "search", some "ds", 0⟩,
         ⟨none, none, 7⟩]
        (some 3) ["search"] =
      .ok [⟨some "a", some "da", 0⟩, ⟨some "b", some "db", 0⟩, ⟨some "c", some "dc", 0⟩,
           ⟨some "search", some "ds", 0⟩, ⟨none, none, 7⟩] := by
  refine ⟨?_, ?_, by decide⟩
  · rintro ⟨n, hn, hinvalid⟩
    have hfilter : (response.filter fun m => !(validToolNames.contains m)) ≠ [] := by
      have : n ∈ response.filter fun m => !(validToolNames.contains m) := by
        rw [List.mem_filter]
        exact ⟨hn, by simpa using hinvalid⟩
      intro hnil
      rw [hnil] at this
      simp at this
    refine ⟨"Model selected invalid tools: " ++ String.intercalate ", "
      (response.filter fun m => !(validToolNames.contains m)), ?_⟩
    rw [processSelectionResponse]
    simp only [selectLoop_invalid, List.nil_append]
    rw [if_pos hfilter]
  · intro hvalid
    have hinv : (selectLoop validToolNames maxTools [] [] response).2 = [] := by
      rw [selectLoop_invalid]
      simp only [List.nil_append, List.filter_eq_nil_iff]
      intro n hn
      simpa using hvalid n hn
    rw [processSelectionResponse]
    simp only [hinv, ne_eq, not_true_eq_false, if_false,
      selectLoop_selected validToolNames maxTools response [] [] hvalid]

end Xpert.Selector

namespace Xpert.Selector

/-- C4 witness: an unknown name fails; a valid single-name selection passes
the selected tool through. -/
theorem c4_tool_selector_witness :
    (∃ msg, processSelectionResponse ["zzz"] [] ["a"] [] none [] = .error msg)
    ∧ processSelectionResponse ["a"] [⟨some "a", some "da", 0⟩] ["a"]
        [⟨some "a", some "da", 0⟩] none [] = .ok [⟨some "a", some "da", 0⟩] := by
  constructor
  · exact (c4_tool_selector ["zzz"] [] ["a"] [] none []).1 ⟨"zzz", by decide, by decide⟩
  · exact ((c4_tool_selector ["a"] [⟨some "a", some "da", 0⟩] ["a"]
      [⟨some "a", some "da", 0⟩] none []).2.1 (by decide)).trans (by decide)

end Xpert.Selector

namespace Xpert.ClientTool

/-- `truthy x = none` exactly when the value is absent or the empty string. -/
theorem truthy_eq_none (x : Option String) :
    truthy x = none ↔ x = none ∨ x = some "" := by
  match x with
  | none => simp [truthy]
  | some t =>
    by_cases h : t = ""
    · subst h; simp [truthy]
    · simp [truthy, h]

/-- C5: a call to a configured client tool never reaches the inner handler —
the wrapper raises a `ClientToolRequest {clientToolCalls := [toolCall]}`
interrupt; resume processing throws unless `toolMessages` is an array of
exactly one message; when both the returned `tool_call_id` and the original
call id are (truthily) present they must be equal; and a missing id — neither
the message nor the call supplies a non-empty one — is a fatal error. -/
theorem c5_client_tool (clientTools : List String) (toolCall : ToolCall)
    (hclient : clientTools.contains toolCall.name = true) :
    (∀ resume, clientToolWrap clientTools toolCall resume =
      .clientInterrupt { clientToolCalls := [toolCall] }
        (processClientResume toolCall resume))
    ∧ isError (processClientResume toolCall none) = true
    ∧ (∀ ms : List ClientMsg, ms.length ≠ 1 →
        isError (processClientResume toolCall (some ms)) = true)
    ∧ (∀ (m : ClientMsg) (mi ti : String), truthy m.toolCallId = some mi →
        truthy toolCall.id = some ti → mi ≠ ti →
        isError (processClientResume toolCall (some [m])) = true)
    ∧ (∀ i : ClientToolMessageInput,
        truthy (match i.tool_call_id with
                | some t => some t
                | none => toolCall.id) = none →
        isError (processClientResume toolCall (some [.input i])) = true) := by
  have hne : clientTools.isEmpty = false := by
    cases clientTools with
    | nil => simp at hclient
    | cons a l => rfl
  have hmem : toolCall.name ∈ clientTools := by simpa using hclient
  refine ⟨?_, rfl, ?_, ?_, ?_⟩
  · intro resume
    simp [clientToolWrap, hne, hmem]
  · intro ms hms
    match ms with
    | [] => rfl
    | [m] => exact absurd rfl hms
    | m1 :: m2 :: rest => rfl
  · intro m mi ti hmi hti hne'
    simp [processClientResume, hmi, hti, hne', isError]
  · intro i hmerge
    cases hi : i.tool_call_id with
    | some t =>
      rw [hi] at hmerge
      have ht : t = "" := by
        rcases (truthy_eq_none _).mp hmerge with h | h
        · exact absurd h (by simp)
        · injection h
      subst ht
      simp [processClientResume, ClientMsg.toolCallId, hi, truthy, toToolMessage, isError]
    | none =>
      rw [hi] at hmerge
      cases hc : toolCall.id with
      | none =>
        simp [processClientResume, ClientMsg.toolCallId, hi, hc, truthy, toToolMessage, isError]
      | some t =>
        rw [hc] at hmerge
        have ht : t = "" := by
          rcases (truthy_eq_none _).mp hmerge with h | h
          · exact absurd h (by simp)
          · injection h
        subst ht
        simp [processClientResume, ClientMsg.toolCallId, hi, hc, truthy, toToolMessage, isError]

/-- C5 witness: a configured client tool with a mismatching resume id; all
validation branches at concrete inputs. -/
theorem c5_client_tool_witness :
    clientToolWrap ["browser.open"] ⟨some "c1", "browser.open", "x"⟩
        (some [.input { tool_call_id := some "c2" }]) =
      .clientInterrupt { clientToolCalls := [⟨some "c1", "browser.open", "x"⟩] }
        (processClientResume ⟨some "c1", "browser.open", "x"⟩
          (some [.input { tool_call_id := some "c2" }]))
    ∧ isError (processClientResume ⟨some "c1", "browser.open", "x"⟩ none) = true
    ∧ isError (processClientResume ⟨some "c1", "browser.open", "x"⟩ (some [])) = true
    ∧ isError (processClientResume ⟨some "c1", "browser.open", "x"⟩
        (some [.input { tool_call_id := some "c2" }])) = true
    ∧ isError (processClientResume ⟨none, "browser.open", "x"⟩
        (some [.input {}])) = true := by
  refine ⟨?_, ?_, ?_, ?_, ?_⟩
  · exact (c5_client_tool ["browser.open"] ⟨some "c1", "browser.open", "x"⟩ (by decide)).1
      (some [.input { tool_call_id := some "c2" }])
  · exact (c5_client_tool ["browser.open"] ⟨some "c1", "browser.open", "x"⟩ (by decide)).2.1
  · exact (c5_client_tool ["browser.open"] ⟨some "c1", "browser.open", "x"⟩
      (by decide)).2.2.1 [] (by decide)
  · exact (c5_client_tool ["browser.open"] ⟨some "c1", "browser.open", "x"⟩
      (by decide)).2.2.2.1 (.input { tool_call_id := some "c2" }) "c2" "c1"
      (by decide) (by decide) (by decide)
  · exact (c5_client_tool ["browser.open"] ⟨none, "browser.open", "x"⟩
      (by decide)).2.2.2.2 {} (by decide)

end Xpert.ClientTool

namespace Xpert.Invoke

/-- C7: a run whose step count exceeds the effective recursion limit
(`team.agentConfig?.recursionLimit ?? AgentRecursionLimit`) ends in an error
whose message is the localized `RecursionLimitReached` translation for the
language of the user, with the last known state recorded before rethrowing. -/
theorem c7_recursion_limit (teamRecursionLimit : Option Nat) (steps : Nat)
    (languageCode : String)
    (h : effectiveRecursionLimit teamRecursionLimit < steps) :
    invokeRunOutcome teamRecursionLimit steps languageCode =
      .error { recordedLastState := true,
               thrown := recursionLimitReachedMessage languageCode
                 (effectiveRecursionLimit teamRecursionLimit) } := by
  rw [invokeRunOutcome, runGraphSteps, if_pos h]
  simp [streamCatchError]

/-- C7 witness: configured limit 4, five steps, English locale. -/
theorem c7_recursion_limit_witness :
    invokeRunOutcome (some 4) 5 "en-US" =
      .error { recordedLastState := true,
               thrown := recursionLimitReachedMessage "en-US"
                 (effectiveRecursionLimit (some 4)) } :=
  c7_recursion_limit (some 4) 5 "en-US" (by decide)

/-- C8 (amended): on client disconnect the runner triggers the run-level
cancellation signal (unless it has already fired) and records the execution
row with status `ERROR` and error text `Aborted!`. -/
theorem c8_unsubscribe_amended (alreadyAborted : Bool) :
    onUnsubscribe alreadyAborted =
      { abortTriggered := !alreadyAborted,
        upsert := { status := .error, error := some "Aborted!" } } := rfl

/-- C8 counterexample: the execution row recorded on disconnect carries
status `ERROR` (with error `Aborted!`), not status `ABORTED`. -/
theorem c8_unsubscribe_aborted_counterexample :
    (onUnsubscribe false).upsert.status = ExecStatus.error
    ∧ (onUnsubscribe false).upsert.error = some "Aborted!"
    ∧ (onUnsubscribe false).upsert.status ≠ ExecStatus.aborted := by
  refine ⟨rfl, rfl, by decide⟩

end Xpert.Invoke

namespace Xpert.Subgraph

/-- C9 (amended): `wrapModelCall` hooks compose with the FIRST-declared
middleware outermost — for a head middleware with a hook, the composed
handler is that hook around the composition of the remaining middlewares,
with the core model-call handler innermost (so the last-declared middleware
is the one wrapping the core directly). -/
theorem c9_wrap_model_call_amended {Req Resp : Type} (mw : MiddlewareM Req Resp)
    (rest : List (MiddlewareM Req Resp)) (core : Req → Resp)
    (w : Req → (Req → Resp) → Resp) (hw : mw.wrapModelCall = some w) :
    wrappedModelHandler (mw :: rest) core =
      (fun request => w request (wrappedModelHandler rest core))
    ∧ wrappedModelHandler ([] : List (MiddlewareM Req Resp)) core = core := by
  constructor
  · simp [wrappedModelHandler, hw]
  · rfl

/-- C9 witness: a single trace middleware wraps the core directly. -/
theorem c9_wrap_model_call_amended_witness :
    wrappedModelHandler [traceMiddleware "A"] traceCore =
      (fun request =>
        (fun req next => next (req ++ ["A"])) request (wrappedModelHandler [] traceCore)) :=
  (c9_wrap_model_call_amended (traceMiddleware "A") [] traceCore
    (fun req next => next (req ++ ["A"])) rfl).1

/-- C9 counterexample: with middlewares declared `[A, B]`, a request reaches
wrapper `A` first — the composed handler built by `reduceRight` records the
trace `[A, B]`, so the outermost wrapper of the model invocation is the
first-declared middleware, not the last-declared one (which would give
`[B, A]`). -/
theorem c9_wrap_model_call_counterexample :
    wrappedModelHandler [traceMiddleware "A", traceMiddleware "B"] traceCore [] = ["A", "B"]
    ∧ (["A", "B"] : List String) ≠ ["B", "A"] :=
  ⟨rfl, by decide⟩

end Xpert.Subgraph
